import Mathlib

/-!
Verification of the temporal-classification and lifecycle core of the
`reminder` repository (obligation tracker with a web UI and CLI).

The development shallowly embeds:

* `src/helpers/dateUtils.js` — `getNextWeekdayDates`, `formatLocalDate`,
  `parseLocalDate`;
* `src/business/obligationManager.js` — the obligation store
  (`add`, `update`, `toggleDone`, `delete`, `updateMissedStatus`,
  `clearAll`, `saveObligations`);
* the two duplicated horizon-bucketing implementations:
  `groupByTimeHorizon` in the browser UI (`app.js`) and the grouping
  loop in `cli.js` `listObligations`.

Modelling conventions:

* Instants are integers (milliseconds since the Unix epoch), local dates
  are integers (days since 1970-01-01 in the observer's calendar).
* The host timezone is modelled as a fixed UTC offset (`off`, in
  milliseconds, added to UTC to obtain local time); daylight-saving
  transitions are not modelled.
* JavaScript `Date` component conversion (epoch day ↔ (year, month, day))
  follows the proleptic Gregorian calendar of ECMAScript `MakeDay` /
  `YearFromTime`; `civilFromDays`/`daysFromCivil` below implement those
  conversions with era/century/quad decomposition.
* Fallible persistence (`fs.writeFileSync` possibly throwing inside
  `saveObligations`) is modelled by a boolean `saveOk` parameter; an
  operation returns `Except Unit α` (the `Unit` error standing for the
  propagated exception) together with the in-memory collection the
  manager holds after the call.
-/

/-- Gregorian leap-year predicate (ECMAScript DaysInYear). -/
def IsLeap (y : Int) : Prop := y % 4 = 0 ∧ (y % 100 ≠ 0 ∨ y % 400 = 0)

instance (y : Int) : Decidable (IsLeap y) := by unfold IsLeap; infer_instance

/-- Number of days in month `m` (1..12) of year `y`. -/
def daysInMonth (y : Int) (m : Int) : Int :=
  if m = 2 then (if IsLeap y then 29 else 28)
  else if m = 4 ∨ m = 6 ∨ m = 9 ∨ m = 11 then 30 else 31

/-- Validity of a calendar triple (year, month 1..12, day 1..daysInMonth). -/
def ValidYMD (y m d : Int) : Prop := 1 ≤ m ∧ m ≤ 12 ∧ 1 ≤ d ∧ d ≤ daysInMonth y m

instance (y m d : Int) : Decidable (ValidYMD y m d) := by unfold ValidYMD; infer_instance

/-- Year of the March-based calendar (Jan/Feb belong to the previous year). -/
def marchYear (y m : Int) : Int := if m ≤ 2 then y - 1 else y

/-- Month index 0..11 of the March-based calendar (0 = March, 11 = February). -/
def marchMonth (m : Int) : Int := if 2 < m then m - 3 else m + 9

/-- Era (400-year block) of a March-based year (floor division; `/` on `Int` is
Euclidean division, which for the positive divisor 400 is floor division). -/
def eraOfYear (yy : Int) : Int := yy / 400

/-- Year-of-era, 0..399. -/
def yoeOfYear (yy : Int) : Int := yy - 400 * (yy / 400)

/-- Day-of-March-year (0..365) of March-month `mp` (0..11) and day-of-month `d`. -/
def doyOfMd (mp d : Int) : Int := (153 * mp + 2) / 5 + d - 1

/-- Day-of-era (0..146096) of year-of-era `yoe` and day-of-year `doy`. -/
def doeOfYoeDoy (yoe doy : Int) : Int := yoe * 365 + yoe / 4 - yoe / 100 + doy

/-- Days since 1970-01-01 of the Gregorian date (y, m, d). -/
def daysFromCivil (y m d : Int) : Int :=
  eraOfYear (marchYear y m) * 146097
    + doeOfYoeDoy (yoeOfYear (marchYear y m)) (doyOfMd (marchMonth m) d) - 719468

/-- Era of an epoch day. -/
def eraOfDay (z : Int) : Int := (z + 719468) / 146097

/-- Day-of-era of an epoch day. -/
def doeOfDay (z : Int) : Int := z + 719468 - 146097 * eraOfDay z

/-- Century 0..3 within the era of a day-of-era (the final, longer century
also absorbs day 146096). -/
def centuryOfDoe (doe : Int) : Int := if doe / 36524 = 4 then 3 else doe / 36524

/-- Day within the century. -/
def dicOfDoe (doe : Int) : Int := doe - 36524 * centuryOfDoe doe

/-- Four-year block 0..24 within the century. -/
def quadOfDoe (doe : Int) : Int := dicOfDoe doe / 1461

/-- Day within the four-year block. -/
def diqOfDoe (doe : Int) : Int := dicOfDoe doe - 1461 * quadOfDoe doe

/-- Year 0..3 within the four-year block (the final, leap year absorbs day 1460). -/
def yinqOfDoe (doe : Int) : Int := if diqOfDoe doe / 365 = 4 then 3 else diqOfDoe doe / 365

/-- Year-of-era 0..399 of a day-of-era. -/
def yoeOfDoe (doe : Int) : Int := 100 * centuryOfDoe doe + 4 * quadOfDoe doe + yinqOfDoe doe

/-- Day-of-March-year 0..365 of a day-of-era. -/
def doyOfDoe (doe : Int) : Int := diqOfDoe doe - 365 * yinqOfDoe doe

/-- March-month 0..11 of a day-of-March-year. -/
def mpOfDoy (doy : Int) : Int := (5 * doy + 2) / 153

/-- Day-of-month 1..31 of a day-of-March-year. -/
def dayOfDoy (doy : Int) : Int := doy - (153 * mpOfDoy doy + 2) / 5 + 1

/-- Calendar month 1..12 of a day-of-March-year. -/
def monthOfDoy (doy : Int) : Int := if mpOfDoy doy < 10 then mpOfDoy doy + 3 else mpOfDoy doy - 9

/-- March-based year of an epoch day. -/
def rawYearOfDay (z : Int) : Int := yoeOfDoe (doeOfDay z) + 400 * eraOfDay z

/-- Calendar year of an epoch day. -/
def yearOfDay (z : Int) : Int :=
  if monthOfDoy (doyOfDoe (doeOfDay z)) ≤ 2 then rawYearOfDay z + 1 else rawYearOfDay z

/-- Gregorian date (y, m, d) of an epoch day (inverse of `daysFromCivil`). -/
def civilFromDays (z : Int) : Int × Int × Int :=
  (yearOfDay z, monthOfDoy (doyOfDoe (doeOfDay z)), dayOfDoy (doyOfDoe (doeOfDay z)))

/-- Weekday of an epoch day as returned by `Date.prototype.getDay`:
0 = Sunday .. 6 = Saturday; day 0 (1970-01-01) was a Thursday (4). -/
def jsGetDay (z : Int) : Int := (z + 4) % 7

/-- Two-digit-year rule of the `new Date(year, month, day)` constructor
(ECMAScript MakeFullYear): integer years 0..99 are read as 1900..1999. -/
def jsFullYear (y : Int) : Int := if 0 ≤ y ∧ y ≤ 99 then y + 1900 else y

/-- Epoch day of the local date produced by `new Date(year, month0, day)`
(`month0` 0-based), with month overflow folded into the year (floor) and
day overflow rolling across months, per ECMAScript MakeDay.  `setDate(n)`
on a date with components (y, m0, _) produces `jsMakeDay y m0 n`. -/
def jsMakeDay (y m0 dd : Int) : Int :=
  daysFromCivil (jsFullYear y + m0 / 12) (m0 % 12 + 1) 1 + (dd - 1)

/-!
Embedding of `src/helpers/dateUtils.js`.

A JS `Date` is represented, where only its local calendar date matters, by
that date: either an epoch-day integer or its component triple.  String
rendering of numbers models JS template literals / `String(n)` in decimal.
-/

/-- Decimal digit character. -/
def digitChar (n : Nat) : Char := Char.ofNat (48 + n)

/-- Decimal digits of a natural number, most significant first (fuel-driven
structural recursion; `natDigits` supplies sufficient fuel). -/
def natDigitsF : Nat → Nat → List Char
  | 0, _ => []
  | fuel + 1, n => if n < 10 then [digitChar n] else natDigitsF fuel (n / 10) ++ [digitChar (n % 10)]

/-- Decimal digits of a natural number, as JS `String(n)` renders it. -/
def natDigits (n : Nat) : List Char := natDigitsF (n + 1) n

/-- JS decimal rendering of an integer (`${x}` / `String(x)`). -/
def intStrChars (i : Int) : List Char :=
  if i < 0 then '-' :: natDigits i.natAbs else natDigits i.toNat

/-- JS `String.prototype.padStart(2, "0")`. -/
def padStart2 (l : List Char) : List Char :=
  if 2 ≤ l.length then l else List.replicate (2 - l.length) '0' ++ l

/-- Model of `DateUtils.formatLocalDate(date)`:
`year + "-" + pad2(month) + "-" + pad2(day)` from the local components of
the date with epoch day `z`.  The year is rendered unpadded, exactly as the
template literal in the source does. -/
def formatLocalDate (z : Int) : String :=
  ⟨intStrChars (civilFromDays z).1
    ++ '-' :: padStart2 (intStrChars (civilFromDays z).2.1)
    ++ '-' :: padStart2 (intStrChars (civilFromDays z).2.2)⟩

/-- Split a character list at `'-'` separators, as JS `split('-')`. -/
def splitDash : List Char → List (List Char)
  | [] => [[]]
  | c :: rest =>
    if c = '-' then [] :: splitDash rest
    else
      match splitDash rest with
      | [] => [[c]]
      | h :: t2 => (c :: h) :: t2

/-- JS `Number(s)` on an all-digit string: the decimal value (leading zeros
allowed).  Strings with non-digit characters give `NaN` in JS and are
outside the model's domain. -/
def jsStringToNat (l : List Char) : Nat := l.foldl (fun a c => 10 * a + (c.toNat - 48)) 0

/-- Model of `DateUtils.parseLocalDate(dateString)`: splits on `'-'`, maps
`Number`, and builds `new Date(year, month - 1, day)`.  Returns the epoch
day of the resulting local date, or `none` when the string does not have
exactly three dash-separated fields (in JS the destructuring then produces
`undefined` components and an invalid Date). -/
def parseLocalDate (s : String) : Option Int :=
  match splitDash s.data with
  | [a, b, c] =>
    some (jsMakeDay (jsStringToNat a) ((jsStringToNat b : Int) - 1) (jsStringToNat c))
  | _ => none

/-- Canonical zero-padded rendering of a calendar triple as a
`"YYYY-MM-DD"` string (for a 4-digit year this is exactly the set of valid
date strings the round-trip law quantifies over). -/
def dateString (y m d : Nat) : String :=
  ⟨natDigits y ++ '-' :: padStart2 (natDigits m) ++ '-' :: padStart2 (natDigits d)⟩

/-- Lower-cased weekday names, indexed by `getDay` value, as the keys
produced by `getNextWeekdayDates` (the source lower-cases
`['Sunday', .., 'Saturday']`). -/
def weekdayNames : List String :=
  ["sunday", "monday", "tuesday", "wednesday", "thursday", "friday", "saturday"]

/-- Value `daysUntil` of `DateUtils.getNextWeekdayDates`:
`(targetDay - today.getDay() + 7) % 7 || 7`.  The JS `%` here acts on a
non-negative operand (1..13), so it agrees with Euclidean `%`. -/
def daysUntilNext (todayDow target : Int) : Int :=
  if (target - todayDow + 7) % 7 = 0 then 7 else (target - todayDow + 7) % 7

/-- Epoch day of `today = new Date(fromDate.getFullYear(), fromDate.getMonth(),
fromDate.getDate())` inside `getNextWeekdayDates`, from the reference date's
local components (`m0` 0-based). -/
def todayOf (y m0 dd : Int) : Int := jsMakeDay y m0 dd

/-- Epoch day of `nextDate` for target weekday `t`:
`nextDate.setDate(today.getDate() + daysUntil)`. -/
def nextWeekdayDay (y m0 dd t : Int) : Int :=
  jsMakeDay y m0 (dd + daysUntilNext (jsGetDay (todayOf y m0 dd)) t)

/-- Model of `DateUtils.getNextWeekdayDates(fromDate)`: the association list
weekday-name ↦ formatted next date, in `getDay` order, from the reference
date's local components. -/
def getNextWeekdayDates (y m0 dd : Int) : List (String × String) :=
  (List.range 7).map (fun t =>
    (weekdayNames.getD t "", formatLocalDate (nextWeekdayDay y m0 dd (t : Int))))

/-!
Embedding of `src/business/obligationManager.js`.
-/

/-- Obligation status enumeration. -/
inductive Status where
  | pending
  | done
  | missed
  deriving DecidableEq, Repr

/-- An obligation record.  `due_at` is the instant (epoch ms) denoted by the
stored ISO-8601 timestamp; `none` stands for a missing or `null` field.
`created_at` is the instant of the stored ISO timestamp. -/
structure Obligation where
  id : String
  title : String
  due_at : Option Int
  estimated_duration : Option Int
  urgency : Option String
  status : Status
  created_at : Int
  deriving DecidableEq, Repr

/-- Candidate fields handed to `add` (the parser result): `title` is `none`
for a missing/`undefined`/`null` title. -/
structure ObligationInput where
  title : Option String
  due_at : Option Int
  estimated_duration : Option Int
  urgency : Option String
  deriving DecidableEq, Repr

/-- JS `obligationData.title || 'Untitled obligation'`: a missing, null or
empty title falls back to the default. -/
def jsOrTitle : Option String → String
  | none => "Untitled obligation"
  | some s => if s = "" then "Untitled obligation" else s

/-- The obligation built by `add`: `id = Date.now().toString()`,
`created_at = new Date().toISOString()` (both the current instant `now`,
in ms), `status = 'pending'`. -/
def mkObligation (now : Int) (d : ObligationInput) : Obligation :=
  { id := toString now
    title := jsOrTitle d.title
    due_at := d.due_at
    estimated_duration := d.estimated_duration
    urgency := d.urgency
    status := .pending
    created_at := now }

/-- Model of `add(obligationData)`: pushes the new obligation, then saves.
On save failure the error propagates while the pushed obligation stays in
the in-memory collection. -/
def addOp (saveOk : Bool) (now : Int) (d : ObligationInput) (obs : List Obligation) :
    Except Unit Obligation × List Obligation :=
  (if saveOk then .ok (mkObligation now d) else .error (), obs ++ [mkObligation now d])

/-- Replace the first obligation whose `id` matches (as
`this.obligations.find(o => o.id === id)` followed by in-place mutation),
returning the mutated obligation and the resulting collection. -/
def mapFirst (f : Obligation → Obligation) : List Obligation → String → Option Obligation × List Obligation
  | [], _ => (none, [])
  | o :: rest, i =>
    if o.id = i then (some (f o), f o :: rest)
    else ((mapFirst f rest i).1, o :: (mapFirst f rest i).2)

/-- The status flip in `toggleDone`:
`obligation.status === 'done' ? 'pending' : 'done'`. -/
def toggleStatus (s : Status) : Status := if s = .done then .pending else .done

/-- Model of `toggleDone(id)` without persistence: find the first matching
obligation and flip its status. -/
def toggleDone (obs : List Obligation) (i : String) : Option Obligation × List Obligation :=
  mapFirst (fun o => { o with status := toggleStatus o.status }) obs i

/-- Model of `toggleDone(id)` with persistence: on a miss nothing is saved
and `null` is returned; on a hit the collection is saved (possibly
failing). -/
def toggleDoneOp (saveOk : Bool) (obs : List Obligation) (i : String) :
    Except Unit (Option Obligation) × List Obligation :=
  match toggleDone obs i with
  | (none, _) => (.ok none, obs)
  | (some o2, obs2) => (if saveOk then .ok (some o2) else .error (), obs2)

/-- A `due_at` entry of an `updates` object: the key may be absent
(`undefined`), explicitly `null`, or a timestamp. -/
inductive DueUpdate where
  | absent
  | null
  | set (t : Int)
  deriving DecidableEq, Repr

/-- The `updates` object accepted by `update(id, updates)` (the API route
forwards at most `due_at` and `estimated_duration`).  For
`estimated_duration`, `none` = key absent, `some v` = assign `v`. -/
structure UpdateFields where
  due_at : DueUpdate
  estimated_duration : Option (Option Int)
  deriving DecidableEq, Repr

/-- Effect of `Object.assign(obligation, updates)` on the `due_at` field. -/
def applyDue (cur : Option Int) : DueUpdate → Option Int
  | .absent => cur
  | .null => none
  | .set t => some t

/-- Model of the per-obligation body of `update`: assign the given fields,
then, when `updates.due_at !== undefined` and the status is not `done`,
recompute the status by comparing `new Date(obligation.due_at)` with `now`.
`new Date(null)` is the epoch, so a cleared (`null`) `due_at` compares as
instant 0. -/
def update1 (nowMs : Int) (u : UpdateFields) (o : Obligation) : Obligation :=
  let o1 : Obligation :=
    { o with
      due_at := applyDue o.due_at u.due_at
      estimated_duration :=
        match u.estimated_duration with
        | none => o.estimated_duration
        | some v => v }
  match u.due_at with
  | .absent => o1
  | .null => if o1.status ≠ .done then
      (if (0 : Int) < nowMs then { o1 with status := .missed } else { o1 with status := .pending })
    else o1
  | .set t => if o1.status ≠ .done then
      (if t < nowMs then { o1 with status := .missed } else { o1 with status := .pending })
    else o1

/-- Model of `update(id, updates)` with persistence. -/
def updateOp (saveOk : Bool) (nowMs : Int) (u : UpdateFields) (obs : List Obligation) (i : String) :
    Except Unit (Option Obligation) × List Obligation :=
  match mapFirst (update1 nowMs u) obs i with
  | (none, _) => (.ok none, obs)
  | (some o2, obs2) => (if saveOk then .ok (some o2) else .error (), obs2)

/-- Remove the first obligation whose `id` matches
(`findIndex` + `splice(index, 1)`). -/
def deleteFirst : List Obligation → String → Option Obligation × List Obligation
  | [], _ => (none, [])
  | o :: rest, i =>
    if o.id = i then (some o, rest)
    else ((deleteFirst rest i).1, o :: (deleteFirst rest i).2)

/-- Model of `delete(id)` with persistence. -/
def deleteOp (saveOk : Bool) (obs : List Obligation) (i : String) :
    Except Unit (Option Obligation) × List Obligation :=
  match deleteFirst obs i with
  | (none, _) => (.ok none, obs)
  | (some o2, obs2) => (if saveOk then .ok (some o2) else .error (), obs2)

/-- The per-obligation step of `updateMissedStatus`: an obligation that is
neither `done` nor `missed`, with a (truthy) `due_at` strictly in the past,
becomes `missed`. -/
def sweepOne (nowMs : Int) (o : Obligation) : Obligation :=
  match o.due_at with
  | none => o
  | some t =>
    if o.status ≠ .done ∧ t < nowMs ∧ o.status ≠ .missed then { o with status := .missed } else o

/-- Model of `updateMissedStatus()`: sweep every obligation; save only when
something changed. -/
def updateMissedStatus (saveOk : Bool) (nowMs : Int) (obs : List Obligation) :
    Except Unit Unit × List Obligation :=
  if obs.map (sweepOne nowMs) = obs then (.ok (), obs)
  else (if saveOk then .ok () else .error (), obs.map (sweepOne nowMs))

/-- Model of `getAll()`: run the missed sweep, then return the collection. -/
def getAll (saveOk : Bool) (nowMs : Int) (obs : List Obligation) :
    Except Unit (List Obligation) × List Obligation :=
  match updateMissedStatus saveOk nowMs obs with
  | (.ok _, obs2) => (.ok obs2, obs2)
  | (.error e, obs2) => (.error e, obs2)

/-- The value returned by `clearAll`: `{ success: true, count: 0 }`. -/
structure ClearResult where
  success : Bool
  count : Int
  deriving DecidableEq, Repr

/-- Model of `clearAll()`: replace the collection with `[]`, save, and
return `{ success: true, count: 0 }`. -/
def clearAll (saveOk : Bool) (obs : List Obligation) : Except Unit ClearResult × List Obligation :=
  (if saveOk then .ok ⟨true, 0⟩ else .error (), [])

/-!
Embedding of the two duplicated horizon-bucketing implementations:
`groupByTimeHorizon` in the browser UI and the grouping loop of
`listObligations` in `cli.js`.
-/

/-- Milliseconds per day. -/
def msPerDay : Int := 86400000

/-- Milliseconds per hour. -/
def msPerHour : Int := 3600000

/-- Local calendar-day index of instant `t` (ms) under the fixed UTC offset
`off` (ms added to UTC to obtain local time). -/
def localDay (off t : Int) : Int := (t + off) / msPerDay

/-- Instant of the local midnight starting the local day of `t`: the value
of `new Date(getFullYear(), getMonth(), getDate(), 0, 0, 0, 0)` built from
`now` in `groupByTimeHorizon`. -/
def localMidnight (off t : Int) : Int := localDay off t * msPerDay - off

/-- The five display buckets. -/
inductive Bucket where
  | missed
  | now
  | today
  | thisWeek
  | later
  deriving DecidableEq, Repr

/-- Bucket assignment of `groupByTimeHorizon` (browser variant, app.js);
`none` = excluded (`done`).  Boundaries: `today` = local midnight of the
evaluation instant, `tomorrow = today + 1 day`, `weekFromNow = today + 7
days` (`setDate` arithmetic, exact under a fixed offset).  The float test
`hoursUntil < 2` is `dueAt - now < 2 * 3600000` exactly, and
`hoursUntil < 0` is `dueAt < now`. -/
def browserBucket (off now : Int) (o : Obligation) : Option Bucket :=
  if o.status = .missed then some .missed
  else if o.status = .done then none
  else
    match o.due_at with
    | none => some .later
    | some dueAt =>
      if dueAt < now then some .missed
      else if dueAt - now < 2 * msPerHour then some .now
      else if dueAt < localMidnight off now + msPerDay then some .today
      else if dueAt < localMidnight off now + 7 * msPerDay then some .thisWeek
      else some .later

/-- Bucket assignment of the grouping loop in `cli.js` `listObligations`.
Identical tests except the boundaries: `tomorrow` and `weekFromNow` are
built from the full `now` Date via `setDate(+1)` / `setDate(+7)`, i.e. the
same local wall-clock time one/seven days later — `now + 1 day` and
`now + 7 days` under a fixed offset, not local midnights. -/
def cliBucket (now : Int) (o : Obligation) : Option Bucket :=
  if o.status = .missed then some .missed
  else if o.status = .done then none
  else
    match o.due_at with
    | none => some .later
    | some dueAt =>
      if dueAt < now then some .missed
      else if dueAt - now < 2 * msPerHour then some .now
      else if dueAt < now + msPerDay then some .today
      else if dueAt < now + 7 * msPerDay then some .thisWeek
      else some .later

/-- The five bucket lists. -/
structure Groups where
  missed : List Obligation
  now : List Obligation
  today : List Obligation
  thisWeek : List Obligation
  later : List Obligation
  deriving DecidableEq, Repr

/-- The obligations pushed into bucket `b`, in input order (the `forEach`
appends preserve relative order). -/
def bucketFilter (f : Obligation → Option Bucket) (b : Bucket) (obs : List Obligation) :
    List Obligation :=
  obs.filter (fun o => f o = some b)

/-- The sort key of the comparator in `groupByTimeHorizon`:
`a.due_at ? new Date(a.due_at) : new Date(9999999999999)`. -/
def sortKey (o : Obligation) : Int := o.due_at.getD 9999999999999

/-- Stable insertion of an obligation into a key-sorted list: the element
is placed before the first position whose key is at least as large, so
elements with equal keys keep their original relative order. -/
def insertByKey (o : Obligation) : List Obligation → List Obligation
  | [] => [o]
  | b :: rest => if sortKey o ≤ sortKey b then o :: b :: rest else b :: insertByKey o rest

/-- The per-bucket sort of `groupByTimeHorizon`: ECMAScript
`Array.prototype.sort` is stable and the numeric comparator
`aDate - bDate` orders by `sortKey`, so the result is the unique stable
ascending-by-key reordering; computed here by stable insertion sort. -/
def sortByDue : List Obligation → List Obligation
  | [] => []
  | a :: rest => insertByKey a (sortByDue rest)

/-- Model of `groupByTimeHorizon(obligations)` (browser): classify every
obligation, then sort each bucket by due instant with undated obligations
keyed as `9999999999999`. -/
def groupByTimeHorizon (off now : Int) (obs : List Obligation) : Groups :=
  { missed := sortByDue (bucketFilter (browserBucket off now) .missed obs)
    now := sortByDue (bucketFilter (browserBucket off now) .now obs)
    today := sortByDue (bucketFilter (browserBucket off now) .today obs)
    thisWeek := sortByDue (bucketFilter (browserBucket off now) .thisWeek obs)
    later := sortByDue (bucketFilter (browserBucket off now) .later obs) }

/-- Model of the grouping in `cli.js` `listObligations`: classify every
obligation; the CLI never sorts its buckets, so each keeps input order. -/
def listObligationsGroups (now : Int) (obs : List Obligation) : Groups :=
  { missed := bucketFilter (cliBucket now) .missed obs
    now := bucketFilter (cliBucket now) .now obs
    today := bucketFilter (cliBucket now) .today obs
    thisWeek := bucketFilter (cliBucket now) .thisWeek obs
    later := bucketFilter (cliBucket now) .later obs }

/-- Ascending-by-due ordering of a bucket (non-strict, by the sentinel key). -/
def sortedByDue (l : List Obligation) : Prop :=
  l.Pairwise (fun a b => sortKey a ≤ sortKey b)

/-!
Correctness of the calendar conversion pair: `civilFromDays` is a left
inverse of `daysFromCivil` on valid dates, plus spot checks.
-/

example : daysFromCivil 1970 1 1 = 0 := by decide
example : daysFromCivil 2024 2 29 = 19782 := by decide
example : civilFromDays 19782 = (2024, 2, 29) := by decide
example : civilFromDays 0 = (1970, 1, 1) := by decide
example : civilFromDays 11016 = (2000, 2, 29) := by decide
example : civilFromDays (-25509) = (1900, 2, 28) := by decide
example : civilFromDays (-25508) = (1900, 3, 1) := by decide
example : daysFromCivil 1900 2 28 = -25509 := by decide
example : civilFromDays 2932896 = (9999, 12, 31) := by decide
example : daysFromCivil 9999 12 31 = 2932896 := by decide
example : civilFromDays 20453 = (2025, 12, 31) := by decide
example : civilFromDays 20454 = (2026, 1, 1) := by decide
example : jsGetDay 0 = 4 := by decide
example : jsGetDay (daysFromCivil 2025 6 15) = 0 := by decide
example : jsGetDay (daysFromCivil 2024 2 28) = 3 := by decide

theorem era_doe_recover (era doe : Int) (h0 : 0 ≤ doe) (h1 : doe ≤ 146096) :
    eraOfDay (era * 146097 + doe - 719468) = era ∧
      doeOfDay (era * 146097 + doe - 719468) = doe := by
  unfold doeOfDay eraOfDay
  omega

set_option maxHeartbeats 1000000 in
theorem yoe_doy_recover (yoe doy : Int) (h0 : 0 ≤ yoe) (h1 : yoe ≤ 399)
    (h2 : 0 ≤ doy) (h3 : doy ≤ 365)
    (h4 : doy = 365 → yoe % 4 = 3 ∧ (yoe % 100 ≠ 99 ∨ yoe = 399)) :
    yoeOfDoe (doeOfYoeDoy yoe doy) = yoe ∧
      doyOfDoe (doeOfYoeDoy yoe doy) = doy ∧
      0 ≤ doeOfYoeDoy yoe doy ∧
      doeOfYoeDoy yoe doy ≤ 146096 := by
  unfold doeOfYoeDoy
  obtain ⟨cc, qq, rr, hyoe, hr, hq, hc, hbound⟩ :
      ∃ cc qq rr, yoe = 100 * cc + 4 * qq + rr ∧ (0 ≤ rr ∧ rr ≤ 3) ∧
        (0 ≤ qq ∧ qq ≤ 24) ∧ (0 ≤ cc ∧ cc ≤ 3) ∧ 4 * qq + rr ≤ 99 := by
    exact ⟨yoe / 100, (yoe % 100) / 4, (yoe % 100) % 4, by omega, by omega, by omega,
      by omega, by omega⟩
  have hdoe : yoe * 365 + yoe / 4 - yoe / 100 + doy
      = 36524 * cc + 1461 * qq + 365 * rr + doy := by omega
  rw [hdoe]
  have hcent : centuryOfDoe (36524 * cc + 1461 * qq + 365 * rr + doy) = cc := by
    unfold centuryOfDoe
    split <;> omega
  have hdic : dicOfDoe (36524 * cc + 1461 * qq + 365 * rr + doy)
      = 1461 * qq + 365 * rr + doy := by
    unfold dicOfDoe
    rw [hcent]; ring
  have hquad : quadOfDoe (36524 * cc + 1461 * qq + 365 * rr + doy) = qq := by
    unfold quadOfDoe
    rw [hdic]; omega
  have hdiq : diqOfDoe (36524 * cc + 1461 * qq + 365 * rr + doy) = 365 * rr + doy := by
    unfold diqOfDoe
    rw [hdic, hquad]; ring
  have hyinq : yinqOfDoe (36524 * cc + 1461 * qq + 365 * rr + doy) = rr := by
    unfold yinqOfDoe
    rw [hdiq]
    split <;> omega
  refine ⟨?_, ?_, by omega, by omega⟩
  · unfold yoeOfDoe
    rw [hcent, hquad, hyinq, hyoe]
  · unfold doyOfDoe
    rw [hdiq, hyinq]; ring

theorem mp_day_recover (mp d : Int) (hm0 : 0 ≤ mp) (hm1 : mp ≤ 11) (hd : 1 ≤ d)
    (hdm : d ≤ if mp = 11 then 29 else if mp = 1 ∨ mp = 3 ∨ mp = 6 ∨ mp = 8 then 30 else 31) :
    mpOfDoy (doyOfMd mp d) = mp ∧
      dayOfDoy (doyOfMd mp d) = d ∧
      0 ≤ doyOfMd mp d ∧ doyOfMd mp d ≤ 365 ∧
      (doyOfMd mp d = 365 → mp = 11 ∧ d = 29) := by
  unfold doyOfMd
  have hmp : mpOfDoy ((153 * mp + 2) / 5 + d - 1) = mp := by
    unfold mpOfDoy
    interval_cases mp <;> omega
  refine ⟨hmp, ?_, ?_, ?_, ?_⟩ <;>
    first
      | (unfold dayOfDoy; rw [hmp]; interval_cases mp <;> omega)
      | (interval_cases mp <;> omega)

set_option maxHeartbeats 1000000 in
theorem civilFromDays_daysFromCivil (y m d : Int) (h : ValidYMD y m d) :
    civilFromDays (daysFromCivil y m d) = (y, m, d) := by
  obtain ⟨h1, h2, h3, h4⟩ := h
  have hmp0 : 0 ≤ marchMonth m := by unfold marchMonth; split <;> omega
  have hmp1 : marchMonth m ≤ 11 := by unfold marchMonth; split <;> omega
  have hyoe0 : 0 ≤ yoeOfYear (marchYear y m) := by unfold yoeOfYear; omega
  have hyoe1 : yoeOfYear (marchYear y m) ≤ 399 := by unfold yoeOfYear; omega
  have hYsplit : marchYear y m
      = 400 * eraOfYear (marchYear y m) + yoeOfYear (marchYear y m) := by
    unfold eraOfYear yoeOfYear; omega
  have hdm : d ≤ if marchMonth m = 11 then 29
      else if marchMonth m = 1 ∨ marchMonth m = 3 ∨ marchMonth m = 6 ∨ marchMonth m = 8 then 30
      else 31 := by
    unfold daysInMonth at h4
    by_cases hlt : 2 < m
    · simp only [marchMonth, if_pos hlt]
      split at h4
      · omega
      · split at h4 <;> (split <;> [omega; (split <;> omega)])
    · simp only [marchMonth, if_neg hlt]
      split at h4
      · split at h4 <;> (split <;> omega)
      · split at h4 <;> (split <;> [omega; (split <;> omega)])
  have hmpd := mp_day_recover (marchMonth m) d hmp0 hmp1 h3 hdm
  have hleap : doyOfMd (marchMonth m) d = 365 →
      yoeOfYear (marchYear y m) % 4 = 3 ∧
        (yoeOfYear (marchYear y m) % 100 ≠ 99 ∨ yoeOfYear (marchYear y m) = 399) := by
    intro h365
    obtain ⟨hmp11, hd29⟩ := hmpd.2.2.2.2 h365
    have hm2 : m = 2 := by
      unfold marchMonth at hmp11; split at hmp11 <;> omega
    have hlp : IsLeap y := by
      subst hm2
      unfold daysInMonth at h4
      rw [if_pos rfl] at h4
      by_contra hnl
      rw [if_neg hnl] at h4
      omega
    unfold IsLeap at hlp
    have hmar : marchYear y m = y - 1 := by
      unfold marchYear; rw [if_pos (by omega : m ≤ 2)]
    rw [hmar] at hYsplit hyoe0 hyoe1 ⊢
    omega
  have hydr := yoe_doy_recover (yoeOfYear (marchYear y m)) (doyOfMd (marchMonth m) d)
    hyoe0 hyoe1 hmpd.2.2.1 hmpd.2.2.2.1 hleap
  have hedr := era_doe_recover (eraOfYear (marchYear y m))
    (doeOfYoeDoy (yoeOfYear (marchYear y m)) (doyOfMd (marchMonth m) d)) hydr.2.2.1 hydr.2.2.2
  have e2 : eraOfDay (daysFromCivil y m d) = eraOfYear (marchYear y m) := hedr.1
  have e1 : doeOfDay (daysFromCivil y m d)
      = doeOfYoeDoy (yoeOfYear (marchYear y m)) (doyOfMd (marchMonth m) d) := hedr.2
  have e3 : doyOfDoe (doeOfDay (daysFromCivil y m d)) = doyOfMd (marchMonth m) d := by
    rw [e1]; exact hydr.2.1
  have e6 : yoeOfDoe (doeOfDay (daysFromCivil y m d)) = yoeOfYear (marchYear y m) := by
    rw [e1]; exact hydr.1
  have em : monthOfDoy (doyOfDoe (doeOfDay (daysFromCivil y m d))) = m := by
    unfold monthOfDoy
    rw [e3, hmpd.1]
    by_cases hlt : 2 < m
    · simp only [marchMonth, if_pos hlt]
      rw [if_pos (by omega)]
      omega
    · simp only [marchMonth, if_neg hlt]
      rw [if_neg (by omega)]
      omega
  have ed : dayOfDoy (doyOfDoe (doeOfDay (daysFromCivil y m d))) = d := by
    rw [e3]; exact hmpd.2.1
  have ey : yearOfDay (daysFromCivil y m d) = y := by
    unfold yearOfDay rawYearOfDay
    rw [em, e6, e2]
    by_cases hm2 : m ≤ 2
    · have hmar : marchYear y m = y - 1 := by unfold marchYear; rw [if_pos hm2]
      rw [if_pos hm2, hmar]
      rw [hmar] at hYsplit
      omega
    · have hmar : marchYear y m = y := by unfold marchYear; rw [if_neg hm2]
      rw [if_neg hm2, hmar]
      rw [hmar] at hYsplit
      omega
  show (yearOfDay _, monthOfDoy _, dayOfDoy _) = (y, m, d)
  rw [ey, em, ed]

/-- Adding days to the day argument of `daysFromCivil` adds epoch days
(the day enters linearly). -/
theorem daysFromCivil_day_shift (y m d k : Int) :
    daysFromCivil y m (d + k) = daysFromCivil y m d + k := by
  unfold daysFromCivil doeOfYoeDoy doyOfMd
  ring

/-- For an in-range month and a year outside the two-digit remap window,
`jsMakeDay` is plain `daysFromCivil`. -/
theorem jsMakeDay_eq (y m0 dd : Int) (hm0 : 0 ≤ m0) (hm1 : m0 ≤ 11)
    (hy : y < 0 ∨ 100 ≤ y) :
    jsMakeDay y m0 dd = daysFromCivil y (m0 + 1) dd := by
  unfold jsMakeDay jsFullYear
  rw [if_neg (by omega)]
  have hdiv : m0 / 12 = 0 := by omega
  have hmod : m0 % 12 = m0 := by omega
  rw [hdiv, hmod, add_zero]
  have h2 := daysFromCivil_day_shift y (m0 + 1) 1 (dd - 1)
  rw [show (1 : Int) + (dd - 1) = dd by ring] at h2
  omega

/-!
C2: next-occurrence-of-each-weekday.
-/

theorem daysUntilNext_spec (z t : Int) (ht0 : 0 ≤ t) (ht1 : t < 7) :
    1 ≤ daysUntilNext (jsGetDay z) t ∧ daysUntilNext (jsGetDay z) t ≤ 7 ∧
    jsGetDay (z + daysUntilNext (jsGetDay z) t) = t ∧
    (∀ w : Int, z < w → w < z + daysUntilNext (jsGetDay z) t → jsGetDay w ≠ t) ∧
    (daysUntilNext (jsGetDay z) t = 7 ↔ jsGetDay z = t) := by
  unfold daysUntilNext jsGetDay
  split
  · exact ⟨by omega, by omega, by omega, fun w h1 h2 => by omega, by omega⟩
  · exact ⟨by omega, by omega, by omega, fun w h1 h2 => by omega, by omega⟩

theorem nextWeekdayDay_eq (y m0 dd : Int) (t : Int) (hv : ValidYMD y (m0 + 1) dd)
    (hy : y < 0 ∨ 100 ≤ y) :
    nextWeekdayDay y m0 dd t
      = daysFromCivil y (m0 + 1) dd
        + daysUntilNext (jsGetDay (daysFromCivil y (m0 + 1) dd)) t := by
  obtain ⟨h1, h2, _, _⟩ := hv
  have hm0 : 0 ≤ m0 := by omega
  have hm1 : m0 ≤ 11 := by omega
  unfold nextWeekdayDay todayOf
  rw [jsMakeDay_eq y m0 _ hm0 hm1 hy, jsMakeDay_eq y m0 dd hm0 hm1 hy,
    daysFromCivil_day_shift]

/-- C2 (amended): for every reference instant whose local date is a valid
calendar date with a year outside 0..99 (the JS `Date` constructor remaps
two-digit years to 1900..1999, breaking the claim there), and for each of
the seven weekday indices `t`, `getNextWeekdayDates` contains the pair
(name of `t`, formatted date of `nextWeekdayDay`), and that date is
strictly after the reference's local date, at most 7 days after it, falls
on weekday `t`, is the nearest such date, and is exactly 7 days away iff
the reference date itself falls on weekday `t` — covering rollover over
month ends, year ends and leap days (witness: Feb 28, 2024 → Thursday =
Feb 29, 2024). -/
theorem C2_next_weekday (y m0 dd : Int) (t : Nat) (ht : t < 7)
    (hv : ValidYMD y (m0 + 1) dd) (hy : y < 0 ∨ 100 ≤ y) :
    (weekdayNames.getD t "", formatLocalDate (nextWeekdayDay y m0 dd t))
        ∈ getNextWeekdayDates y m0 dd ∧
    daysFromCivil y (m0 + 1) dd < nextWeekdayDay y m0 dd t ∧
    nextWeekdayDay y m0 dd t ≤ daysFromCivil y (m0 + 1) dd + 7 ∧
    jsGetDay (nextWeekdayDay y m0 dd t) = t ∧
    (∀ w : Int, daysFromCivil y (m0 + 1) dd < w → w < nextWeekdayDay y m0 dd t →
      jsGetDay w ≠ t) ∧
    (nextWeekdayDay y m0 dd t = daysFromCivil y (m0 + 1) dd + 7 ↔
      jsGetDay (daysFromCivil y (m0 + 1) dd) = t) := by
  have heq := nextWeekdayDay_eq y m0 dd t hv hy
  have hsp := daysUntilNext_spec (daysFromCivil y (m0 + 1) dd) t (by omega) (by omega)
  refine ⟨?_, ?_, ?_, ?_, ?_, ?_⟩
  · unfold getNextWeekdayDates
    rw [List.mem_map]
    exact ⟨t, List.mem_range.mpr ht, rfl⟩
  · omega
  · omega
  · rw [heq]; exact hsp.2.2.1
  · intro w hw1 hw2
    exact hsp.2.2.2.1 w hw1 (by omega)
  · rw [heq]
    constructor
    · intro h; exact hsp.2.2.2.2.mp (by omega)
    · intro h; have := hsp.2.2.2.2.mpr h; omega

/-- C2 witness: the leap-day scenario of the claim.  The reference local
date Feb 28, 2024 (a Wednesday, in a leap year) is valid and outside the
two-digit-year window, and instantiating the theorem at weekday 4
(Thursday) the produced entry is ("thursday", "2024-02-29") — Feb 29 of
the same year, one day later. -/
theorem C2_next_weekday_witness :
    (4 < 7 ∧ ValidYMD 2024 (1 + 1) 28 ∧ ((2024 : Int) < 0 ∨ 100 ≤ (2024 : Int))) ∧
    ("thursday", "2024-02-29") ∈ getNextWeekdayDates 2024 1 28 ∧
    nextWeekdayDay 2024 1 28 4 = daysFromCivil 2024 (1 + 1) 28 + 1 := by
  refine ⟨⟨by omega, by decide, by omega⟩, ?_, by decide⟩
  have h := (C2_next_weekday 2024 1 28 4 (by omega) (by decide) (by omega)).1
  rw [show (weekdayNames.getD 4 "", formatLocalDate (nextWeekdayDay 2024 1 28 ((4 : Nat) : Int)))
      = ("thursday", "2024-02-29") by decide] at h
  exact h

/-- C2 counterexample: the claim quantifies over every reference instant,
but for a reference whose local date lies in years 0..99 the source's
`new Date(year, month, day)` remaps the year to 1900 + year, so the
produced dates are not within 1..7 days of the reference's local date.
Concretely, from local date 0050-01-01 the "sunday" entry is about 694000
days after the reference date. -/
theorem C2_counterexample :
    ValidYMD 50 1 1 ∧
    ¬ (nextWeekdayDay 50 0 1 0 ≤ daysFromCivil 50 1 1 + 7) := by
  constructor
  · decide
  · decide

/-!
C8: parse/format round-trip.
-/

theorem digitChar_toNat (k : Nat) (hk : k < 10) : (digitChar k).toNat = 48 + k := by
  interval_cases k <;> decide

theorem digitChar_ne_dash (k : Nat) (hk : k < 10) : digitChar k ≠ '-' := by
  interval_cases k <;> decide

theorem natDigitsF_digits (fuel : Nat) : ∀ n, n < fuel →
    ∀ c ∈ natDigitsF fuel n, ∃ k, k < 10 ∧ c = digitChar k := by
  induction fuel with
  | zero => omega
  | succ f ih =>
    intro n hn c hc
    unfold natDigitsF at hc
    split at hc
    · rename_i h10
      simp only [List.mem_singleton] at hc
      exact ⟨n, h10, hc⟩
    · rename_i h10
      rw [List.mem_append] at hc
      rcases hc with hc | hc
      · exact ih (n / 10) (by omega) c hc
      · simp only [List.mem_singleton] at hc
        exact ⟨n % 10, by omega, hc⟩

theorem natDigits_ne_dash (n : Nat) : ∀ c ∈ natDigits n, c ≠ '-' := by
  intro c hc
  obtain ⟨k, hk, rfl⟩ := natDigitsF_digits (n + 1) n (by omega) c hc
  exact digitChar_ne_dash k hk

theorem padStart2_ne_dash (l : List Char) (h : ∀ c ∈ l, c ≠ '-') :
    ∀ c ∈ padStart2 l, c ≠ '-' := by
  intro c hc
  unfold padStart2 at hc
  split at hc
  · exact h c hc
  · rw [List.mem_append] at hc
    rcases hc with hc | hc
    · rw [List.eq_of_mem_replicate hc]
      decide
    · exact h c hc

theorem splitDash_append (a r : List Char) (h : ∀ c ∈ a, c ≠ '-') :
    splitDash (a ++ '-' :: r) = a :: splitDash r := by
  induction a with
  | nil =>
    simp only [List.nil_append]
    simp only [splitDash]
    rw [if_pos trivial]
  | cons c rest ih =>
    have hc : c ≠ '-' := h c (by simp)
    have ih2 := ih (fun x hx => h x (by simp [hx]))
    simp only [List.cons_append]
    simp only [splitDash]
    rw [if_neg hc, ih2]

theorem splitDash_nodash (a : List Char) (h : ∀ c ∈ a, c ≠ '-') : splitDash a = [a] := by
  induction a with
  | nil => rfl
  | cons c rest ih =>
    have hc : c ≠ '-' := h c (by simp)
    have ih2 := ih (fun x hx => h x (by simp [hx]))
    unfold splitDash
    rw [if_neg hc, ih2]

theorem jsStringToNat_append_digit (l : List Char) (c : Char) :
    jsStringToNat (l ++ [c]) = 10 * jsStringToNat l + (c.toNat - 48) := by
  unfold jsStringToNat
  rw [List.foldl_append]
  rfl

theorem jsStringToNat_natDigitsF (fuel : Nat) : ∀ n, n < fuel →
    jsStringToNat (natDigitsF fuel n) = n := by
  induction fuel with
  | zero => omega
  | succ f ih =>
    intro n hn
    unfold natDigitsF
    split
    · rename_i h10
      unfold jsStringToNat
      simp only [List.foldl_cons, List.foldl_nil]
      rw [digitChar_toNat n h10]
      omega
    · rename_i h10
      rw [jsStringToNat_append_digit, ih (n / 10) (by omega),
        digitChar_toNat (n % 10) (by omega)]
      omega

theorem jsStringToNat_natDigits (n : Nat) : jsStringToNat (natDigits n) = n :=
  jsStringToNat_natDigitsF (n + 1) n (by omega)

theorem jsStringToNat_padStart2 (l : List Char) :
    jsStringToNat (padStart2 l) = jsStringToNat l := by
  unfold padStart2
  split
  · rfl
  · unfold jsStringToNat
    rw [List.foldl_append]
    have hz : ∀ k : Nat, List.foldl (fun a c => 10 * a + (c.toNat - 48)) 0
        (List.replicate k '0') = 0 := by
      intro k
      induction k with
      | zero => rfl
      | succ k2 ih =>
        rw [List.replicate_succ, List.foldl_cons]
        exact ih
    rw [hz]

theorem splitDash_dateString (y m d : Nat) :
    splitDash (dateString y m d).data
      = [natDigits y, padStart2 (natDigits m), padStart2 (natDigits d)] := by
  show splitDash (natDigits y ++ '-' :: padStart2 (natDigits m) ++ '-' :: padStart2 (natDigits d))
      = _
  rw [show (natDigits y ++ '-' :: padStart2 (natDigits m) ++ '-' :: padStart2 (natDigits d))
      = natDigits y ++ '-' :: (padStart2 (natDigits m) ++ '-' :: padStart2 (natDigits d)) by
    simp [List.append_assoc]]
  rw [splitDash_append _ _ (natDigits_ne_dash y)]
  rw [splitDash_append _ _ (padStart2_ne_dash _ (natDigits_ne_dash m))]
  rw [splitDash_nodash _ (padStart2_ne_dash _ (natDigits_ne_dash d))]

theorem parseLocalDate_dateString (y m d : Nat) (hy : 1000 ≤ y)
    (hm : 1 ≤ m) (hm2 : m ≤ 12) :
    parseLocalDate (dateString y m d) = some (daysFromCivil y m d) := by
  unfold parseLocalDate
  rw [splitDash_dateString]
  simp only [jsStringToNat_natDigits, jsStringToNat_padStart2]
  rw [jsMakeDay_eq (y : Int) ((m : Int) - 1) (d : Int) (by omega) (by omega)
    (Or.inr (by exact_mod_cast Nat.le_of_lt (by omega)))]
  rw [show ((m : Int) - 1 + 1) = (m : Int) by ring]

theorem formatLocalDate_daysFromCivil (y m d : Nat) (hv : ValidYMD (y : Int) (m : Int) (d : Int)) :
    formatLocalDate (daysFromCivil y m d) = dateString y m d := by
  have hn : ∀ k : Nat, intStrChars (k : Int) = natDigits k := by
    intro k
    unfold intStrChars
    rw [if_neg (by omega)]
    norm_num
  unfold formatLocalDate
  rw [civilFromDays_daysFromCivil _ _ _ hv]
  show (⟨intStrChars ((y : Nat) : Int) ++ '-' :: padStart2 (intStrChars ((m : Nat) : Int))
      ++ '-' :: padStart2 (intStrChars ((d : Nat) : Int))⟩ : String) = dateString y m d
  rw [hn, hn, hn]
  rfl

/-- C8 (amended): for every valid "YYYY-MM-DD" string whose year field is
1000..9999 — written canonically as `dateString y m d` — parsing yields the
epoch day of exactly that local civil date (independent of any host UTC
offset: the construction uses only the components), and formatting that
date returns the original string.  For years below 1000 the law fails in
the source because the template literal does not zero-pad the year and
`new Date` remaps years 0..99 (see the counterexample). -/
theorem C8_roundtrip (y m d : Nat) (hy : 1000 ≤ y) (hy2 : y ≤ 9999)
    (hv : ValidYMD (y : Int) (m : Int) (d : Int)) :
    parseLocalDate (dateString y m d) = some (daysFromCivil y m d) ∧
    (parseLocalDate (dateString y m d)).map formatLocalDate = some (dateString y m d) := by
  obtain ⟨h1, h2, _, _⟩ := hv
  have hp := parseLocalDate_dateString y m d hy (by omega) (by omega)
  refine ⟨hp, ?_⟩
  rw [hp]
  show some (formatLocalDate (daysFromCivil y m d)) = some (dateString y m d)
  rw [formatLocalDate_daysFromCivil y m d (by constructor <;> omega)]

/-- C8 witness: the round-trip at the concrete valid string "2025-12-31". -/
theorem C8_roundtrip_witness :
    (1000 ≤ 2025 ∧ 2025 ≤ 9999 ∧ ValidYMD 2025 12 31) ∧
    dateString 2025 12 31 = "2025-12-31" ∧
    (parseLocalDate "2025-12-31").map formatLocalDate = some "2025-12-31" := by
  refine ⟨⟨by omega, by omega, by decide⟩, by decide, ?_⟩
  have h := (C8_roundtrip 2025 12 31 (by omega) (by omega) (by decide)).2
  rw [show dateString 2025 12 31 = "2025-12-31" by decide] at h
  exact h

/-- C8 counterexample: the claim quantifies over every valid "YYYY-MM-DD"
string, but "0020-01-02" round-trips to "1920-01-02": `Number("0020") = 20`
and `new Date(20, 0, 2)` remaps the two-digit year to 1920, and the
formatter does not zero-pad years, so the law fails for years below 1000. -/
theorem C8_counterexample :
    (parseLocalDate "0020-01-02").map formatLocalDate = some "1920-01-02" ∧
    ("1920-01-02" : String) ≠ "0020-01-02" := by
  constructor
  · decide
  · decide

/-!
Obligation-store claims.
-/

theorem mapFirst_spec (f : Obligation → Obligation) (pre post : List Obligation)
    (o : Obligation) (i : String) (hpre : ∀ p ∈ pre, p.id ≠ i) (hid : o.id = i) :
    mapFirst f (pre ++ o :: post) i = (some (f o), pre ++ f o :: post) := by
  induction pre with
  | nil =>
    simp only [List.nil_append, mapFirst]
    rw [if_pos hid]
  | cons p rest ih =>
    have hp : p.id ≠ i := hpre p (by simp)
    have ih2 := ih (fun q hq => hpre q (by simp [hq]))
    simp only [List.cons_append, mapFirst, List.append_eq]
    rw [if_neg hp, ih2]

/-- C1 counterexample: clearing `due_at` (setting it to `null`) on a
pending obligation does not set the status to `pending` — it sets it to
`missed`, because the recalculation parses the cleared value as
`new Date(null)`, the epoch, which lies before the evaluation instant.
The updated obligation also violates the invariant: it is `missed` with no
`due_at`. -/
theorem C1_counterexample :
    (updateOp true 1000 ⟨DueUpdate.null, none⟩
        [⟨"1", "call mom", some 5, none, none, Status.pending, 0⟩] "1").1
      = Except.ok (some ⟨"1", "call mom", none, none, none, Status.missed, 0⟩) ∧
    Status.missed ≠ Status.pending := by
  constructor
  · rfl
  · decide

/-- C1 (amended): `update(id, updates)` with `updates.due_at = null` on an
obligation whose status is not `done` sets the status to `missed` whenever
the evaluation instant is after the epoch (because `new Date(null)` is the
epoch), and clears `due_at`; hence a stored obligation can be `missed`
with `due_at` absent, and the invariant "`missed` implies `due_at` present
and in the past" does not hold after such an update. -/
theorem C1_update_clear_missed (saveOk : Bool) (nowMs : Int) (u : UpdateFields)
    (pre post : List Obligation) (o : Obligation) (i : String)
    (hdu : u.due_at = DueUpdate.null) (hnd : o.status ≠ Status.done) (hpos : 0 < nowMs)
    (hpre : ∀ p ∈ pre, p.id ≠ i) (hid : o.id = i) :
    (updateOp saveOk nowMs u (pre ++ o :: post) i).2
        = pre ++ update1 nowMs u o :: post ∧
    (update1 nowMs u o).status = Status.missed ∧
    (update1 nowMs u o).due_at = none := by
  have hmf := mapFirst_spec (update1 nowMs u) pre post o i hpre hid
  refine ⟨?_, ?_, ?_⟩
  · unfold updateOp
    rw [hmf]
  · unfold update1
    rw [hdu]
    simp only
    rw [if_pos hnd, if_pos hpos]
  · unfold update1
    rw [hdu]
    simp only
    rw [if_pos hnd, if_pos hpos]
    rfl

/-- C1 witness: the amended theorem at the concrete store of the
counterexample. -/
theorem C1_update_clear_missed_witness :
    ((⟨DueUpdate.null, none⟩ : UpdateFields).due_at = DueUpdate.null ∧
      Status.pending ≠ Status.done ∧ (0 : Int) < 1000) ∧
    (updateOp true 1000 ⟨DueUpdate.null, none⟩
        [⟨"1", "call mom", some 5, none, none, Status.pending, 0⟩] "1").2
      = [⟨"1", "call mom", none, none, none, Status.missed, 0⟩] := by
  refine ⟨⟨rfl, by decide, by omega⟩, ?_⟩
  have h := C1_update_clear_missed true 1000 ⟨DueUpdate.null, none⟩ [] []
    ⟨"1", "call mom", some 5, none, none, Status.pending, 0⟩ "1"
    rfl (by decide) (by omega) (by simp) rfl
  exact h.1

/-- C5 (confirmed): `toggleDone(id)` on the stored obligation with the given
id maps `missed` to `done` and `done` to `pending`, never produces `missed`,
and toggling twice from `missed` yields `pending` (the sweep alone can
re-derive `missed` later). -/
theorem C5_toggleDone (pre post : List Obligation) (o : Obligation) (i : String)
    (hpre : ∀ p ∈ pre, p.id ≠ i) (hid : o.id = i) :
    (toggleDone (pre ++ o :: post) i).1 = some { o with status := toggleStatus o.status } ∧
    (o.status = Status.missed → toggleStatus o.status = Status.done) ∧
    (o.status = Status.done → toggleStatus o.status = Status.pending) ∧
    toggleStatus o.status ≠ Status.missed ∧
    (toggleDone (toggleDone (pre ++ o :: post) i).2 i).1
      = some { o with status := toggleStatus (toggleStatus o.status) } ∧
    (o.status = Status.missed → toggleStatus (toggleStatus o.status) = Status.pending) := by
  have h1 := mapFirst_spec (fun o => { o with status := toggleStatus o.status })
    pre post o i hpre hid
  have h2 := mapFirst_spec (fun o => { o with status := toggleStatus o.status })
    pre post { o with status := toggleStatus o.status } i hpre hid
  refine ⟨?_, ?_, ?_, ?_, ?_, ?_⟩
  · unfold toggleDone
    rw [h1]
  · intro h; rw [h]; decide
  · intro h; rw [h]; decide
  · cases o.status <;> decide
  · unfold toggleDone
    rw [h1]
    simp only
    rw [h2]
  · intro h; rw [h]; decide

/-- C5 witness: a concrete missed obligation toggles to `done`, and twice
to `pending`. -/
theorem C5_toggleDone_witness :
    ((∀ p ∈ ([] : List Obligation), p.id ≠ "7") ∧
      (⟨"7", "x", some (-5), none, none, Status.missed, 0⟩ : Obligation).id = "7") ∧
    (toggleDone [⟨"7", "x", some (-5), none, none, Status.missed, 0⟩] "7").1
      = some ⟨"7", "x", some (-5), none, none, Status.done, 0⟩ ∧
    (toggleDone (toggleDone [⟨"7", "x", some (-5), none, none, Status.missed, 0⟩] "7").2 "7").1
      = some ⟨"7", "x", some (-5), none, none, Status.pending, 0⟩ := by
  refine ⟨⟨by simp, rfl⟩, ?_, ?_⟩
  · exact (C5_toggleDone [] [] ⟨"7", "x", some (-5), none, none, Status.missed, 0⟩ "7"
      (by simp) rfl).1
  · exact (C5_toggleDone [] [] ⟨"7", "x", some (-5), none, none, Status.missed, 0⟩ "7"
      (by simp) rfl).2.2.2.2.1

/-- C10 (confirmed): `toggleDone(id)` changes only the `status` field of the
first obligation carrying the id; its other fields and every other
obligation in the collection are unchanged. -/
theorem C10_toggleDone_frame (pre post : List Obligation) (o : Obligation) (i : String)
    (hpre : ∀ p ∈ pre, p.id ≠ i) (hid : o.id = i) :
    toggleDone (pre ++ o :: post) i
      = (some { o with status := toggleStatus o.status },
          pre ++ { o with status := toggleStatus o.status } :: post) ∧
    ({ o with status := toggleStatus o.status } : Obligation).id = o.id ∧
    ({ o with status := toggleStatus o.status } : Obligation).title = o.title ∧
    ({ o with status := toggleStatus o.status } : Obligation).due_at = o.due_at ∧
    ({ o with status := toggleStatus o.status } : Obligation).estimated_duration
      = o.estimated_duration ∧
    ({ o with status := toggleStatus o.status } : Obligation).urgency = o.urgency ∧
    ({ o with status := toggleStatus o.status } : Obligation).created_at = o.created_at := by
  refine ⟨?_, rfl, rfl, rfl, rfl, rfl, rfl⟩
  unfold toggleDone
  exact mapFirst_spec _ pre post o i hpre hid

/-- C10 witness: the frame property at a concrete two-element store. -/
theorem C10_toggleDone_frame_witness :
    ((∀ p ∈ [(⟨"a", "first", none, none, none, Status.pending, 0⟩ : Obligation)],
        p.id ≠ "b") ∧
      (⟨"b", "second", some 9, some 30, some "normal", Status.pending, 1⟩ : Obligation).id
        = "b") ∧
    toggleDone [⟨"a", "first", none, none, none, Status.pending, 0⟩,
        ⟨"b", "second", some 9, some 30, some "normal", Status.pending, 1⟩] "b"
      = (some ⟨"b", "second", some 9, some 30, some "normal", Status.done, 1⟩,
          [⟨"a", "first", none, none, none, Status.pending, 0⟩,
            ⟨"b", "second", some 9, some 30, some "normal", Status.done, 1⟩]) := by
  refine ⟨⟨by simp, rfl⟩, ?_⟩
  exact (C10_toggleDone_frame [⟨"a", "first", none, none, none, Status.pending, 0⟩] []
    ⟨"b", "second", some 9, some 30, some "normal", Status.pending, 1⟩ "b"
    (by simp) rfl).1

/-- C6 counterexample: a failed save inside `add` propagates the error, but
the operation is not effect-free — the pushed obligation remains in the
in-memory collection, which therefore diverges from the last persisted
state. -/
theorem C6_counterexample :
    (addOp false 5 ⟨some "pay rent", some 99, none, none⟩ []).1 = Except.error () ∧
    (addOp false 5 ⟨some "pay rent", some 99, none, none⟩ []).2 ≠ [] := by
  constructor
  · rfl
  · decide

/-- C6 (amended): for every mutation, a failed save propagates the error to
the caller, but the in-memory collection is left in the post-mutation
state, not rolled back: `add` keeps the pushed obligation, `toggleDone`,
`update` and `delete` keep the mutated collection whenever the id was
found, `clearAll` keeps the emptied collection, and the missed-sweep keeps
the swept collection whenever it changed anything.  (When the id is not
found, or the sweep changes nothing, no save is attempted and no error is
raised.) -/
theorem C6_failed_save_keeps_mutation :
    (∀ (now : Int) (d : ObligationInput) (obs : List Obligation),
      addOp false now d obs = (Except.error (), obs ++ [mkObligation now d])) ∧
    (∀ (obs : List Obligation) (i : String) (o2 : Obligation) (obs2 : List Obligation),
      toggleDone obs i = (some o2, obs2) →
        toggleDoneOp false obs i = (Except.error (), obs2)) ∧
    (∀ (nowMs : Int) (u : UpdateFields) (obs : List Obligation) (i : String)
        (o2 : Obligation) (obs2 : List Obligation),
      mapFirst (update1 nowMs u) obs i = (some o2, obs2) →
        updateOp false nowMs u obs i = (Except.error (), obs2)) ∧
    (∀ (obs : List Obligation) (i : String) (o2 : Obligation) (obs2 : List Obligation),
      deleteFirst obs i = (some o2, obs2) →
        deleteOp false obs i = (Except.error (), obs2)) ∧
    (∀ obs : List Obligation, clearAll false obs = (Except.error (), [])) ∧
    (∀ (nowMs : Int) (obs : List Obligation), obs.map (sweepOne nowMs) ≠ obs →
      updateMissedStatus false nowMs obs = (Except.error (), obs.map (sweepOne nowMs))) := by
  refine ⟨fun now d obs => rfl, ?_, ?_, ?_, fun obs => rfl, ?_⟩
  · intro obs i o2 obs2 h
    unfold toggleDoneOp
    rw [h]
    rfl
  · intro nowMs u obs i o2 obs2 h
    unfold updateOp
    rw [h]
    rfl
  · intro obs i o2 obs2 h
    unfold deleteOp
    rw [h]
    rfl
  · intro nowMs obs h
    unfold updateMissedStatus
    rw [if_neg h]
    rfl

/-- C6 witness: the failed-save behaviour at concrete inputs for `add`,
`toggleDone` and `clearAll`. -/
theorem C6_failed_save_witness :
    addOp false 5 ⟨some "pay rent", some 99, none, none⟩ []
      = (Except.error (), [⟨"5", "pay rent", some 99, none, none, Status.pending, 5⟩]) ∧
    toggleDoneOp false [⟨"1", "t", none, none, none, Status.pending, 0⟩] "1"
      = (Except.error (), [⟨"1", "t", none, none, none, Status.done, 0⟩]) ∧
    clearAll false [⟨"1", "t", none, none, none, Status.pending, 0⟩]
      = (Except.error (), []) := by
  refine ⟨?_, ?_, ?_⟩
  · have h := (C6_failed_save_keeps_mutation).1 5 ⟨some "pay rent", some 99, none, none⟩ []
    rw [h]
    rfl
  · have h := (C6_failed_save_keeps_mutation).2.1
      [⟨"1", "t", none, none, none, Status.pending, 0⟩] "1"
      ⟨"1", "t", none, none, none, Status.done, 0⟩
      [⟨"1", "t", none, none, none, Status.done, 0⟩] (by rfl)
    rw [h]
  · exact (C6_failed_save_keeps_mutation).2.2.2.2.1
      [⟨"1", "t", none, none, none, Status.pending, 0⟩]

/-- C7 counterexample: `add` on a candidate whose title is empty does not
fail with a validation error and does create an obligation — the empty
title is replaced by `'Untitled obligation'` (`obligationData.title ||
'Untitled obligation'`); no `ValidationError` exists anywhere in the
source. -/
theorem C7_counterexample :
    (addOp true 5 ⟨some "", none, none, none⟩ []).1
      = Except.ok ⟨"5", "Untitled obligation", none, none, none, Status.pending, 5⟩ ∧
    (addOp true 5 ⟨some "", none, none, none⟩ []).2
      = [⟨"5", "Untitled obligation", none, none, none, Status.pending, 5⟩] := by
  constructor
  · rfl
  · rfl

/-- C7 (amended): `add(candidate)` assigns `id = String(Date.now())` and
`created_at` (the current instant) and defaults `status` to `pending`; it
never fails on an empty title — a missing, null or empty title is replaced
by `'Untitled obligation'` and the obligation is created and appended. -/
theorem C7_add_defaults (saveOk : Bool) (now : Int) (d : ObligationInput)
    (obs : List Obligation) (hsv : saveOk = true) :
    (addOp saveOk now d obs).1 = Except.ok (mkObligation now d) ∧
    (addOp saveOk now d obs).2 = obs ++ [mkObligation now d] ∧
    (mkObligation now d).status = Status.pending ∧
    (mkObligation now d).created_at = now ∧
    (mkObligation now d).id = toString now ∧
    (d.title = none ∨ d.title = some "" → (mkObligation now d).title = "Untitled obligation") ∧
    (∀ s, d.title = some s → s ≠ "" → (mkObligation now d).title = s) := by
  subst hsv
  refine ⟨rfl, rfl, rfl, rfl, rfl, ?_, ?_⟩
  · intro h
    unfold mkObligation jsOrTitle
    rcases h with h | h <;> rw [h]
    simp
  · intro s hs hne
    unfold mkObligation jsOrTitle
    rw [hs]
    simp [hne]

/-- C7 witness: `add` with an empty title at a concrete input. -/
theorem C7_add_defaults_witness :
    (true = true) ∧
    (addOp true 5 ⟨some "", none, none, none⟩ []).1
      = Except.ok (mkObligation 5 ⟨some "", none, none, none⟩) ∧
    (mkObligation 5 ⟨some "", none, none, none⟩).title = "Untitled obligation" ∧
    (mkObligation 5 ⟨some "", none, none, none⟩).status = Status.pending := by
  have h := C7_add_defaults true 5 ⟨some "", none, none, none⟩ [] rfl
  exact ⟨rfl, h.1, h.2.2.2.2.2.1 (Or.inr rfl), h.2.2.1⟩

/-- C9 counterexample: `clearAll` on a one-element store returns
`count: 0`, not the number of obligations removed (1). -/
theorem C9_counterexample :
    (clearAll true [⟨"1", "t", none, none, none, Status.pending, 0⟩]).1
      = Except.ok ⟨true, 0⟩ ∧
    ([(⟨"1", "t", none, none, none, Status.pending, 0⟩ : Obligation)].length : Int) = 1 ∧
    (0 : Int) ≠ 1 := by
  refine ⟨rfl, rfl, by decide⟩

/-- C9 (amended): `clearAll()` empties the obligation collection, but the
returned count is the constant 0 (`{ success: true, count: 0 }`),
independent of how many obligations were removed. -/
theorem C9_clearAll (saveOk : Bool) (obs : List Obligation) (hsv : saveOk = true) :
    clearAll saveOk obs = (Except.ok ⟨true, 0⟩, []) ∧
    ∀ obs2 : List Obligation, (clearAll saveOk obs).1 = (clearAll saveOk obs2).1 := by
  subst hsv
  exact ⟨rfl, fun obs2 => rfl⟩

/-- C9 witness: `clearAll` at the one-element store of the counterexample. -/
theorem C9_clearAll_witness :
    (true = true) ∧
    clearAll true [⟨"1", "t", none, none, none, Status.pending, 0⟩]
      = (Except.ok ⟨true, 0⟩, []) := by
  exact ⟨rfl, (C9_clearAll true [⟨"1", "t", none, none, none, Status.pending, 0⟩] rfl).1⟩

/-!
Horizon-classification claims.
-/

/-- C3 counterexample: with offset 0 and evaluation instant 14:00 local
(50400000 ms), an obligation due 23:59 local today (86340000) and one due
00:05 local tomorrow (86700000) fall into different buckets only in the
browser implementation (`today` vs `thisWeek`); the CLI implementation
puts both in `today`, because its `tomorrow` boundary is the raw
evaluation instant plus 24 h, not the local midnight. -/
theorem C3_counterexample :
    browserBucket 0 50400000 ⟨"1", "late evening", some 86340000, none, none, Status.pending, 0⟩
      = some Bucket.today ∧
    browserBucket 0 50400000 ⟨"2", "after midnight", some 86700000, none, none, Status.pending, 0⟩
      = some Bucket.thisWeek ∧
    cliBucket 50400000 ⟨"1", "late evening", some 86340000, none, none, Status.pending, 0⟩
      = some Bucket.today ∧
    cliBucket 50400000 ⟨"2", "after midnight", some 86700000, none, none, Status.pending, 0⟩
      = some Bucket.today ∧
    Bucket.today ≠ Bucket.thisWeek := by
  refine ⟨by decide, by decide, by decide, by decide, by decide⟩

/-- C3 (amended): in both bucketing implementations the 2-hour rule is
checked before the today/this-week boundaries: a pending obligation due at
or after the evaluation instant and strictly less than 2 hours away is
bucketed `now` in both.  The local-midnight anchoring of the today and
this-week boundaries holds only in the browser implementation: there, two
pending obligations at least 2 hours away, one due before the next local
midnight and one due on a later local day within the week, land in
`today` and `thisWeek` respectively.  In the CLI implementation the
boundaries are the raw evaluation instant plus 24 h / 7 days, so every
pending obligation between 2 and 24 hours away is `today` regardless of
local midnight. -/
theorem C3_two_hour_before_boundaries :
    (∀ (off now dueAt : Int) (iid tt : String) (ed : Option Int) (ur : Option String) (ca : Int),
      now ≤ dueAt → dueAt - now < 2 * msPerHour →
      browserBucket off now ⟨iid, tt, some dueAt, ed, ur, Status.pending, ca⟩
          = some Bucket.now ∧
        cliBucket now ⟨iid, tt, some dueAt, ed, ur, Status.pending, ca⟩ = some Bucket.now) ∧
    (∀ (off now d1 d2 : Int) (iid tt : String) (ed : Option Int) (ur : Option String) (ca : Int),
      now + 2 * msPerHour ≤ d1 → d1 < localMidnight off now + msPerDay →
      now + 2 * msPerHour ≤ d2 → localMidnight off now + msPerDay ≤ d2 →
      d2 < localMidnight off now + 7 * msPerDay →
      browserBucket off now ⟨iid, tt, some d1, ed, ur, Status.pending, ca⟩
          = some Bucket.today ∧
        browserBucket off now ⟨iid, tt, some d2, ed, ur, Status.pending, ca⟩
          = some Bucket.thisWeek) ∧
    (∀ (now dueAt : Int) (iid tt : String) (ed : Option Int) (ur : Option String) (ca : Int),
      now + 2 * msPerHour ≤ dueAt → dueAt < now + msPerDay →
      cliBucket now ⟨iid, tt, some dueAt, ed, ur, Status.pending, ca⟩ = some Bucket.today) := by
  refine ⟨?_, ?_, ?_⟩
  · intro off now dueAt iid tt ed ur ca h1 h2
    unfold msPerHour at h2
    constructor
    · unfold browserBucket
      simp only [reduceCtorEq, if_false]
      rw [if_neg (by omega), if_pos (by unfold msPerHour; omega)]
    · unfold cliBucket
      simp only [reduceCtorEq, if_false]
      rw [if_neg (by omega), if_pos (by unfold msPerHour; omega)]
  · intro off now d1 d2 iid tt ed ur ca h1 h2 h3 h4 h5
    unfold msPerHour at h1 h3
    constructor
    · unfold browserBucket
      simp only [reduceCtorEq, if_false]
      rw [if_neg (by omega), if_neg (by unfold msPerHour; omega), if_pos h2]
    · unfold browserBucket
      simp only [reduceCtorEq, if_false]
      rw [if_neg (by omega), if_neg (by unfold msPerHour; omega), if_neg (by omega),
        if_pos h5]
  · intro now dueAt iid tt ed ur ca h1 h2
    unfold msPerHour at h1
    unfold cliBucket
    simp only [reduceCtorEq, if_false]
    rw [if_neg (by omega), if_neg (by unfold msPerHour; omega), if_pos h2]

/-- C3 witness: the amended theorem at the concrete instants of the
counterexample — 90 minutes away is `now` in both implementations, and the
23:59 / 00:05 pair splits into `today` / `thisWeek` in the browser. -/
theorem C3_two_hour_witness :
    ((50400000 : Int) ≤ 55800000 ∧ (55800000 : Int) - 50400000 < 2 * msPerHour) ∧
    (browserBucket 0 50400000 ⟨"3", "soon", some 55800000, none, none, Status.pending, 0⟩
        = some Bucket.now ∧
      cliBucket 50400000 ⟨"3", "soon", some 55800000, none, none, Status.pending, 0⟩
        = some Bucket.now) ∧
    (browserBucket 0 50400000 ⟨"1", "late evening", some 86340000, none, none,
        Status.pending, 0⟩ = some Bucket.today ∧
      browserBucket 0 50400000 ⟨"2", "after midnight", some 86700000, none, none,
        Status.pending, 0⟩ = some Bucket.thisWeek) := by
  refine ⟨⟨by omega, by unfold msPerHour; omega⟩, ?_, ?_⟩
  · exact C3_two_hour_before_boundaries.1 0 50400000 55800000 "3" "soon" none none 0
      (by omega) (by unfold msPerHour; omega)
  · exact C3_two_hour_before_boundaries.2.1 0 50400000 86340000 86700000 "1" "late evening"
      none none 0 (by unfold msPerHour; omega)
      (by unfold localMidnight localDay msPerDay; omega)
      (by unfold msPerHour; omega)
      (by unfold localMidnight localDay msPerDay; omega)
      (by unfold localMidnight localDay msPerDay; omega)
      |>.imp (fun h => h) (fun h => h)

theorem mem_insertByKey (o x : Obligation) (l : List Obligation) :
    x ∈ insertByKey o l ↔ x = o ∨ x ∈ l := by
  induction l with
  | nil => simp [insertByKey]
  | cons b rest ih =>
    unfold insertByKey
    split
    · simp [or_comm, or_assoc, or_left_comm]
    · simp only [List.mem_cons, ih]
      tauto

theorem sorted_insertByKey (o : Obligation) (l : List Obligation)
    (h : l.Pairwise (fun a b => sortKey a ≤ sortKey b)) :
    (insertByKey o l).Pairwise (fun a b => sortKey a ≤ sortKey b) := by
  induction l with
  | nil => simp [insertByKey]
  | cons b rest ih =>
    rw [List.pairwise_cons] at h
    unfold insertByKey
    split
    · rename_i hle
      rw [List.pairwise_cons]
      refine ⟨?_, List.pairwise_cons.mpr h⟩
      intro x hx
      rcases List.mem_cons.mp hx with rfl | hx
      · exact hle
      · exact le_trans hle (h.1 x hx)
    · rename_i hgt
      rw [List.pairwise_cons]
      refine ⟨?_, ih h.2⟩
      intro x hx
      rcases (mem_insertByKey o x rest).mp hx with rfl | hx
      · omega
      · exact h.1 x hx

theorem sortByDue_sorted (l : List Obligation) : sortedByDue (sortByDue l) := by
  unfold sortedByDue
  induction l with
  | nil => simp [sortByDue]
  | cons a rest ih =>
    unfold sortByDue
    exact sorted_insertByKey a _ ih

theorem sorted_undated_last (l : List Obligation) (h : sortedByDue l) :
    l.Pairwise (fun a b => a.due_at = none → ∀ t, b.due_at = some t →
      t < 9999999999999 → False) := by
  unfold sortedByDue at h
  refine h.imp (fun hab => ?_)
  intro ha t hb ht
  unfold sortKey at hab
  rw [ha, hb] at hab
  simp only [Option.getD_none, Option.getD_some] at hab
  omega

/-- C4 counterexample: the CLI implementation never sorts its buckets, so
an undated obligation listed before a dated one stays before it inside the
`later` bucket — the ordering property fails in the CLI half of the claim. -/
theorem C4_counterexample :
    (listObligationsGroups 0
        [⟨"u", "undated", none, none, none, Status.pending, 0⟩,
          ⟨"v", "dated", some 999999999999, none, none, Status.pending, 0⟩]).later
      = [⟨"u", "undated", none, none, none, Status.pending, 0⟩,
          ⟨"v", "dated", some 999999999999, none, none, Status.pending, 0⟩] ∧
    (⟨"u", "undated", none, none, none, Status.pending, 0⟩ : Obligation).due_at = none ∧
    (⟨"v", "dated", some 999999999999, none, none, Status.pending, 0⟩ : Obligation).due_at
      = some 999999999999 := by
  refine ⟨by decide, rfl, rfl⟩

/-- C4 (amended): in the browser implementation every bucket of
`groupByTimeHorizon` is sorted ascending by due instant with undated
obligations keyed as 9999999999999 — in particular an undated obligation
never precedes a dated one whose due instant is below that sentinel (about
year 2286).  The CLI implementation does not sort: each of its buckets is
a subsequence of the input collection, keeping insertion order. -/
theorem C4_bucket_ordering (off now : Int) (obs : List Obligation) :
    (∀ l ∈ [(groupByTimeHorizon off now obs).missed, (groupByTimeHorizon off now obs).now,
        (groupByTimeHorizon off now obs).today, (groupByTimeHorizon off now obs).thisWeek,
        (groupByTimeHorizon off now obs).later],
      sortedByDue l ∧
        l.Pairwise (fun a b => a.due_at = none → ∀ t, b.due_at = some t →
          t < 9999999999999 → False)) ∧
    (listObligationsGroups now obs).missed.Sublist obs ∧
    (listObligationsGroups now obs).now.Sublist obs ∧
    (listObligationsGroups now obs).today.Sublist obs ∧
    (listObligationsGroups now obs).thisWeek.Sublist obs ∧
    (listObligationsGroups now obs).later.Sublist obs := by
  constructor
  · intro l hl
    simp only [List.mem_cons, List.not_mem_nil, or_false] at hl
    have : ∃ l2, l = sortByDue l2 := by
      rcases hl with rfl | rfl | rfl | rfl | rfl
      · exact ⟨_, rfl⟩
      · exact ⟨_, rfl⟩
      · exact ⟨_, rfl⟩
      · exact ⟨_, rfl⟩
      · exact ⟨_, rfl⟩
    obtain ⟨l2, rfl⟩ := this
    exact ⟨sortByDue_sorted l2, sorted_undated_last _ (sortByDue_sorted l2)⟩
  · exact ⟨List.filter_sublist _, List.filter_sublist _, List.filter_sublist _,
      List.filter_sublist _, List.filter_sublist _⟩

/-- C4 witness: the browser buckets of a concrete collection are sorted,
with the undated obligation placed after the dated ones in `later`. -/
theorem C4_bucket_ordering_witness :
    (groupByTimeHorizon 0 0
        [⟨"u", "undated", none, none, none, Status.pending, 0⟩,
          ⟨"w", "far", some 999999999999, none, none, Status.pending, 0⟩,
          ⟨"v", "near", some 900000000000, none, none, Status.pending, 0⟩]).later
      = [⟨"v", "near", some 900000000000, none, none, Status.pending, 0⟩,
          ⟨"w", "far", some 999999999999, none, none, Status.pending, 0⟩,
          ⟨"u", "undated", none, none, none, Status.pending, 0⟩] ∧
    sortedByDue (groupByTimeHorizon 0 0
        [⟨"u", "undated", none, none, none, Status.pending, 0⟩,
          ⟨"w", "far", some 999999999999, none, none, Status.pending, 0⟩,
          ⟨"v", "near", some 900000000000, none, none, Status.pending, 0⟩]).later := by
  constructor
  · decide
  · exact ((C4_bucket_ordering 0 0
      [⟨"u", "undated", none, none, none, Status.pending, 0⟩,
        ⟨"w", "far", some 999999999999, none, none, Status.pending, 0⟩,
        ⟨"v", "near", some 900000000000, none, none, Status.pending, 0⟩]).1
      _ (by simp)).1
